import Mathlib

/-!
Verification of the ECC gadget layer (`src/gadget/ecc.rs`).

The file shallowly embeds the `EccInstructions` trait and the three wrapper
types `Scalar`, `Point`, `FixedPoint` together with their methods.  A chip
implementation of the trait is a bundle of four operations; each operation
receives the layouter state explicitly (the Rust code passes the layouter by
`&mut`, so every operation is modelled as a state-passing function returning
the `Result` together with the updated layouter).  The wrapper methods take
the layouter by value and discard its final state, exactly as the Rust
wrappers do (`mut layouter: impl Layouter<EccChip>` is moved into the method
and dropped), so a wrapper method returns only the `Result`.

Type-level facts of the Rust declarations (parameter passing modes, derive
lists, field visibility, the shape of the generic signatures) are reflected
as explicit data so that claims about the API surface can be settled by
computation.
-/

namespace EccGadget

variable {L S P F E : Type}

/-- Embedding of the trait `EccInstructions<C: CurveAffine>`: a chip is a
bundle of the four instruction operations.  `L` is the layouter type, `S`,
`P`, `F` are the chip-native handle types `Self::Scalar`, `Self::Point`,
`Self::FixedPoint`, and `E` is the opaque synthesis error type
(`plonk::Error`, outside this core).  Each operation threads the layouter
state explicitly, modelling the `&mut impl Layouter<Self>` parameter. -/
structure EccInstructions (L S P F E : Type) : Type where
  add : L → P → P → Except E P × L
  double : L → P → Except E P × L
  mul : L → S → P → Except E P × L
  mul_fixed : L → S → F → Except E P × L

/-- Embedding of `pub struct Scalar<C, EccChip> { inner: EccChip::Scalar }`. -/
structure Scalar (S : Type) : Type where
  inner : S

/-- Embedding of `pub struct Point<C, EccChip> { inner: EccChip::Point }`. -/
structure Point (P : Type) : Type where
  inner : P

/-- Embedding of `pub struct FixedPoint<C, EccChip> { inner: EccChip::FixedPoint }`. -/
structure FixedPoint (F : Type) : Type where
  inner : F

/-- Embedding of `Point::add`:
`EccChip::add(&mut layouter, &self.inner, &other.inner).map(|inner| Point { inner })`. -/
def Point.add (chip : EccInstructions L S P F E) (self : Point P) (layouter : L)
    (other : Point P) : Except E (Point P) :=
  (chip.add layouter self.inner other.inner).1.map fun inner => Point.mk inner

/-- Embedding of `Point::double`:
`EccChip::double(&mut layouter, &self.inner).map(|inner| Point { inner })`. -/
def Point.double (chip : EccInstructions L S P F E) (self : Point P) (layouter : L) :
    Except E (Point P) :=
  (chip.double layouter self.inner).1.map fun inner => Point.mk inner

/-- Embedding of `Point::mul` (the scalar parameter is named `by` in Rust,
which is a keyword in Lean, hence `byScalar`):
`EccChip::mul(&mut layouter, &by.inner, &self.inner).map(|inner| Point { inner })`. -/
def Point.mul (chip : EccInstructions L S P F E) (self : Point P) (layouter : L)
    (byScalar : Scalar S) : Except E (Point P) :=
  (chip.mul layouter byScalar.inner self.inner).1.map fun inner => Point.mk inner

/-- Embedding of `FixedPoint::mul`:
`EccChip::mul_fixed(&mut layouter, &by.inner, &self.inner).map(|inner| Point { inner })`. -/
def FixedPoint.mul (chip : EccInstructions L S P F E) (self : FixedPoint F) (layouter : L)
    (byScalar : Scalar S) : Except E (Point P) :=
  (chip.mul_fixed layouter byScalar.inner self.inner).1.map fun inner => Point.mk inner

/-- C1: every wrapper method is a pure one-to-one forward to the matching
instruction-contract operation: `Point::add` returns the re-wrapped result of
`EccInstructions::add(l, self.inner, other.inner)`, `Point::double` the
re-wrapped result of `double(l, self.inner)`, `Point::mul` the re-wrapped
result of `mul(l, by.inner, self.inner)`, and `FixedPoint::mul` the
re-wrapped result of `mul_fixed(l, by.inner, self.inner)`; no wrapper
performs any computation or validation of its own. -/
theorem wrapper_methods_forward (chip : EccInstructions L S P F E)
    (l : L) (p q : Point P) (s : Scalar S) (f : FixedPoint F) :
    Point.add chip p l q = ((chip.add l p.inner q.inner).1).map (fun h => Point.mk h)
      ∧ Point.double chip p l = ((chip.double l p.inner).1).map (fun h => Point.mk h)
      ∧ Point.mul chip p l s = ((chip.mul l s.inner p.inner).1).map (fun h => Point.mk h)
      ∧ FixedPoint.mul chip f l s
          = ((chip.mul_fixed l s.inner f.inner).1).map (fun h => Point.mk h) :=
  ⟨rfl, rfl, rfl, rfl⟩

/-- C2: if the underlying instruction-contract call fails with error `e`, the
wrapper method returns exactly that same error unchanged — no new error kind,
no recovery, and a failure is never turned into a success value. -/
theorem wrapper_methods_propagate_errors (chip : EccInstructions L S P F E)
    (l1 l2 l3 l4 : L) (p q : Point P) (s : Scalar S) (f : FixedPoint F)
    (e1 e2 e3 e4 : E)
    (h1 : (chip.add l1 p.inner q.inner).1 = Except.error e1)
    (h2 : (chip.double l2 p.inner).1 = Except.error e2)
    (h3 : (chip.mul l3 s.inner p.inner).1 = Except.error e3)
    (h4 : (chip.mul_fixed l4 s.inner f.inner).1 = Except.error e4) :
    Point.add chip p l1 q = Except.error e1
      ∧ Point.double chip p l2 = Except.error e2
      ∧ Point.mul chip p l3 s = Except.error e3
      ∧ FixedPoint.mul chip f l4 s = Except.error e4 := by
  refine ⟨?_, ?_, ?_, ?_⟩ <;>
    simp [Point.add, Point.double, Point.mul, FixedPoint.mul, h1, h2, h3, h4, Except.map]

/-- A chip whose every operation fails with the synthesis error `7`, used to
exercise the error-propagation theorem on concrete inputs. -/
def failChip : EccInstructions Unit Nat Nat Nat Nat where
  add := fun l _ _ => (Except.error 7, l)
  double := fun l _ => (Except.error 7, l)
  mul := fun l _ _ => (Except.error 7, l)
  mul_fixed := fun l _ _ => (Except.error 7, l)

/-- Witness for C2: on a chip whose operations all fail with error `7`, each
wrapper method returns exactly `Except.error 7`. -/
theorem wrapper_methods_propagate_errors_witness :
    Point.add failChip (Point.mk 0) () (Point.mk 1) = Except.error 7
      ∧ Point.double failChip (Point.mk 0) () = Except.error 7
      ∧ Point.mul failChip (Point.mk 0) () (Scalar.mk 2) = Except.error 7
      ∧ FixedPoint.mul failChip (FixedPoint.mk 3) () (Scalar.mk 2) = Except.error 7 :=
  wrapper_methods_propagate_errors failChip () () () ()
    (Point.mk 0) (Point.mk 1) (Scalar.mk 2) (FixedPoint.mk 3) 7 7 7 7 rfl rfl rfl rfl

/-- A chip whose every operation succeeds with the handle `0`, used to
exercise the determinism theorem on concrete inputs. -/
def constChip : EccInstructions Unit Nat Nat Nat Nat where
  add := fun l _ _ => (Except.ok 0, l)
  double := fun l _ => (Except.ok 0, l)
  mul := fun l _ _ => (Except.ok 0, l)
  mul_fixed := fun l _ _ => (Except.ok 0, l)

/-- C6: all four instruction-contract operations are referentially
transparent: for any chip, two calls to the same operation with identical
input handles and identical allocator state produce an identical result or
an identical failure.  Chip operations are modelled as pure functions of the
allocator state and the input handles (the trait methods receive no other
input: they are associated functions with no `self`), so the two-run
property holds for every implementation. -/
theorem instructions_referentially_transparent (chip : EccInstructions L S P F E)
    (l1 l2 : L) (s1 s2 : S) (a1 a2 b1 b2 : P) (f1 f2 : F)
    (hl : l1 = l2) (ha : a1 = a2) (hb : b1 = b2) (hs : s1 = s2) (hf : f1 = f2) :
    chip.add l1 a1 b1 = chip.add l2 a2 b2
      ∧ chip.double l1 a1 = chip.double l2 a2
      ∧ chip.mul l1 s1 a1 = chip.mul l2 s2 a2
      ∧ chip.mul_fixed l1 s1 f1 = chip.mul_fixed l2 s2 f2 := by
  subst hl ha hb hs hf
  exact ⟨rfl, rfl, rfl, rfl⟩

/-- Witness for C6: two runs of each operation of a concrete chip on
identical inputs and identical allocator state agree. -/
theorem instructions_referentially_transparent_witness :
    constChip.add () 1 2 = constChip.add () 1 2
      ∧ constChip.double () 1 = constChip.double () 1
      ∧ constChip.mul () 5 1 = constChip.mul () 5 1
      ∧ constChip.mul_fixed () 5 3 = constChip.mul_fixed () 5 3 :=
  instructions_referentially_transparent constChip () () 5 5 1 1 2 2 3 3
    rfl rfl rfl rfl rfl

/-- Modelled from the spec: no concrete chip implementation lives under
`src/` (chips are explicitly out-of-scope external collaborators), so the
semantic side of the instruction contract is modelled from the spec text of
section 4.1: a conforming chip comes with a resolution of point handles to
native curve values in the curve's abelian point group `G` and of scalar
handles to integers; `add(a, b)` resolves to the group sum of its operands,
`double(a)` computes `[2] a`, `mul(scalar, base)` computes `[scalar] base`,
and `mul_fixed(scalar, base)` computes `[scalar] base` for the fixed base. -/
structure ChipSemantics (G : Type) [AddCommGroup G]
    (chip : EccInstructions L S P F E) : Type where
  resolve : P → G
  scalarVal : S → ℤ
  fixedVal : F → G
  add_sem : ∀ l a b h, (chip.add l a b).1 = Except.ok h →
    resolve h = resolve a + resolve b
  double_sem : ∀ l a h, (chip.double l a).1 = Except.ok h →
    resolve h = (2 : ℤ) • resolve a
  mul_sem : ∀ l s b h, (chip.mul l s b).1 = Except.ok h →
    resolve h = scalarVal s • resolve b
  mul_fixed_sem : ∀ l s b h, (chip.mul_fixed l s b).1 = Except.ok h →
    resolve h = scalarVal s • fixedVal b

/-- C4: for every contract-conforming chip and every point handle `a`,
a successful `double(a)` resolves to the same native curve value as a
successful `add(a, a)`: doubling is semantically self-addition, because
`[2] a = a + a` in the curve group. -/
theorem double_resolves_as_add_self {G : Type} [AddCommGroup G]
    (chip : EccInstructions L S P F E) (sem : ChipSemantics G chip)
    (l1 l2 : L) (a hd ha : P)
    (h1 : (chip.double l1 a).1 = Except.ok hd)
    (h2 : (chip.add l2 a a).1 = Except.ok ha) :
    sem.resolve hd = sem.resolve ha := by
  rw [sem.double_sem l1 a hd h1, sem.add_sem l2 a a ha h2, two_zsmul]

/-- C5: for every contract-conforming chip and all point handles `a`, `b`,
successful `add(a, b)` and `add(b, a)` resolve to equal native curve values:
the contract's point addition is commutative, because the curve group is
abelian. -/
theorem add_resolves_commutatively {G : Type} [AddCommGroup G]
    (chip : EccInstructions L S P F E) (sem : ChipSemantics G chip)
    (l1 l2 : L) (a b hab hba : P)
    (h1 : (chip.add l1 a b).1 = Except.ok hab)
    (h2 : (chip.add l2 b a).1 = Except.ok hba) :
    sem.resolve hab = sem.resolve hba := by
  rw [sem.add_sem l1 a b hab h1, sem.add_sem l2 b a hba h2, add_comm]

/-- Modelled from the spec: a reference conforming chip over the abelian
group ℤ, whose handles are the native values themselves; every operation
succeeds and performs the group operation the contract prescribes. -/
def modelChip : EccInstructions Unit ℤ ℤ ℤ Nat where
  add := fun l a b => (Except.ok (a + b), l)
  double := fun l a => (Except.ok (a + a), l)
  mul := fun l s b => (Except.ok (s * b), l)
  mul_fixed := fun l s b => (Except.ok (s * b), l)

/-- The reference chip satisfies the contract semantics modelled from the
spec, with the identity resolution. -/
def modelChipSemantics : ChipSemantics ℤ modelChip where
  resolve := id
  scalarVal := id
  fixedVal := id
  add_sem := by
    intro l a b h hh
    injection hh with hh
    subst hh
    rfl
  double_sem := by
    intro l a h hh
    injection hh with hh
    subst hh
    show a + a = (2 : ℤ) • a
    rw [two_zsmul]
  mul_sem := by
    intro l s b h hh
    injection hh with hh
    subst hh
    show s * b = s • b
    simp [zsmul_eq_mul]
  mul_fixed_sem := by
    intro l s b h hh
    injection hh with hh
    subst hh
    show s * b = s • b
    simp [zsmul_eq_mul]

/-- Witness for C4: on the reference chip, `double` at the handle `3` and
`add` at `(3, 3)` both succeed with a handle resolving to `6`. -/
theorem double_resolves_as_add_self_witness :
    modelChipSemantics.resolve (6 : ℤ) = modelChipSemantics.resolve (6 : ℤ) :=
  double_resolves_as_add_self modelChip modelChipSemantics () () 3 6 6 rfl rfl

/-- Witness for C5: on the reference chip, `add (3, 5)` and `add (5, 3)`
both succeed with a handle resolving to `8`. -/
theorem add_resolves_commutatively_witness :
    modelChipSemantics.resolve (8 : ℤ) = modelChipSemantics.resolve (8 : ℤ) :=
  add_resolves_commutatively modelChip modelChipSemantics () () 3 5 8 8 rfl rfl

/-- Type-level reflection of a wrapper-type instantiation.  In the source
the wrappers are generic over the curve `C: CurveAffine` and the chip
`EccChip: EccInstructions<C>`, so a fully instantiated wrapper type is
determined by the wrapper kind together with the (curve, chip) pair; curves
and chips are identified here by indices. -/
inductive GadgetTy : Type where
  | scalarTy (curve chip : Nat) : GadgetTy
  | pointTy (curve chip : Nat) : GadgetTy
  | fixedPointTy (curve chip : Nat) : GadgetTy
deriving DecidableEq

/-- Admissibility of a monomorphic instantiation of `Point::add`.  The
method is declared in `impl<C: CurveAffine, EccChip: EccInstructions<C>>
Point<C, EccChip>` with `other: &Self` and return type `Result<Self, _>`,
so a call type-checks exactly when receiver and argument are the point
wrapper at an identical (curve, chip) instantiation, and then produces that
same type; every other combination has no valid instantiation. -/
def addAccepts : GadgetTy → GadgetTy → Option GadgetTy
  | GadgetTy.pointTy c k, GadgetTy.pointTy c2 k2 =>
      if c = c2 ∧ k = k2 then some (GadgetTy.pointTy c k) else none
  | _, _ => none

/-- C3: points tagged with two distinct chip implementations over the same
curve have distinct, incompatible types, and `add(P, Q)` across them admits
no valid instantiation — cross-chip mixing is unrepresentable rather than a
runtime error. -/
theorem cross_chip_add_rejected (c k1 k2 : Nat) (h : k1 ≠ k2) :
    GadgetTy.pointTy c k1 ≠ GadgetTy.pointTy c k2
      ∧ addAccepts (GadgetTy.pointTy c k1) (GadgetTy.pointTy c k2) = none := by
  constructor
  · intro hc
    exact h (by injection hc)
  · simp [addAccepts, h]

/-- Witness for C3: with two concrete chip indices over the same curve, the
point types differ and the `add` call is rejected. -/
theorem cross_chip_add_rejected_witness :
    GadgetTy.pointTy 0 0 ≠ GadgetTy.pointTy 0 1
      ∧ addAccepts (GadgetTy.pointTy 0 0) (GadgetTy.pointTy 0 1) = none :=
  cross_chip_add_rejected 0 0 1 (by decide)

/-- Parameter-passing mode of a Rust parameter. -/
inductive ParamMode : Type where
  | sharedRef : ParamMode
  | mutRef : ParamMode
  | byValue : ParamMode
deriving DecidableEq

/-- Signature shape of a wrapper method: how the receiver is passed, how the
layouter is passed, and how the remaining wrapper operands are passed. -/
structure MethodSig : Type where
  receiver : ParamMode
  layouterMode : ParamMode
  operandModes : List ParamMode
deriving DecidableEq

/-- Signature of `Point::add`:
`pub fn add(&self, mut layouter: impl Layouter<EccChip>, other: &Self)`. -/
def pointAddSig : MethodSig :=
  MethodSig.mk ParamMode.sharedRef ParamMode.byValue [ParamMode.sharedRef]

/-- Signature of `Point::double`:
`pub fn double(&self, mut layouter: impl Layouter<EccChip>)`. -/
def pointDoubleSig : MethodSig :=
  MethodSig.mk ParamMode.sharedRef ParamMode.byValue []

/-- Signature of `Point::mul`:
`pub fn mul(&self, mut layouter: impl Layouter<EccChip>, by: &Scalar<C, EccChip>)`. -/
def pointMulSig : MethodSig :=
  MethodSig.mk ParamMode.sharedRef ParamMode.byValue [ParamMode.sharedRef]

/-- Signature of `FixedPoint::mul`:
`pub fn mul(&self, mut layouter: impl Layouter<EccChip>, by: &Scalar<C, EccChip>)`. -/
def fixedPointMulSig : MethodSig :=
  MethodSig.mk ParamMode.sharedRef ParamMode.byValue [ParamMode.sharedRef]

/-- C7 fails on the code as stated: the wrapper operations do not move or
consume their wrapper operands.  Concretely, `Point::add` takes its receiver
by shared reference (`&self`), not by value, and likewise its point operand
(`other: &Self`). -/
theorem wrapper_operands_not_consumed :
    pointAddSig.receiver = ParamMode.sharedRef
      ∧ pointAddSig.receiver ≠ ParamMode.byValue
      ∧ pointAddSig.operandModes = [ParamMode.sharedRef]
      ∧ [ParamMode.sharedRef] ≠ [ParamMode.byValue] := by
  decide

/-- C7 amended: each wrapper owns its inner handle as a plain value, but the
operations borrow rather than consume their wrapper operands — every wrapper
method passes its receiver and every wrapper operand by shared reference and
consumes only the layouter by value — and each operation produces a fresh
wrapper built around the handle newly returned by the chip, never reusing or
exposing an operand handle. -/
theorem wrapper_operands_borrowed_and_results_fresh :
    (pointAddSig.receiver = ParamMode.sharedRef
        ∧ pointAddSig.operandModes = [ParamMode.sharedRef]
        ∧ pointAddSig.layouterMode = ParamMode.byValue)
      ∧ (pointDoubleSig.receiver = ParamMode.sharedRef
        ∧ pointDoubleSig.operandModes = []
        ∧ pointDoubleSig.layouterMode = ParamMode.byValue)
      ∧ (pointMulSig.receiver = ParamMode.sharedRef
        ∧ pointMulSig.operandModes = [ParamMode.sharedRef]
        ∧ pointMulSig.layouterMode = ParamMode.byValue)
      ∧ (fixedPointMulSig.receiver = ParamMode.sharedRef
        ∧ fixedPointMulSig.operandModes = [ParamMode.sharedRef]
        ∧ fixedPointMulSig.layouterMode = ParamMode.byValue)
      ∧ ∀ (L S P F E : Type) (chip : EccInstructions L S P F E)
          (l : L) (p q : Point P) (s : Scalar S) (f : FixedPoint F),
          Point.add chip p l q = ((chip.add l p.inner q.inner).1).map (fun h => Point.mk h)
            ∧ Point.double chip p l
                = ((chip.double l p.inner).1).map (fun h => Point.mk h)
            ∧ Point.mul chip p l s
                = ((chip.mul l s.inner p.inner).1).map (fun h => Point.mk h)
            ∧ FixedPoint.mul chip f l s
                = ((chip.mul_fixed l s.inner f.inner).1).map (fun h => Point.mk h) :=
  ⟨by decide, by decide, by decide, by decide,
    fun _ _ _ _ _ _ _ _ _ _ _ => ⟨rfl, rfl, rfl, rfl⟩⟩

/-- C9: no wrapper method ever mutates an existing wrapper: every wrapper
operand (the receiver and any other wrapper argument) is passed by shared
reference, and whether the underlying chip call succeeds or fails the method
only reads the operands — on success it constructs a fresh wrapper around
the chip-returned handle, on failure it returns the error and constructs
nothing — so every operand wrapper and its inner handle are unchanged and
remain usable afterwards. -/
theorem wrapper_methods_mutate_no_operand (chip : EccInstructions L S P F E)
    (l : L) (p q : Point P) (s : Scalar S) (f : FixedPoint F) :
    (pointAddSig.receiver = ParamMode.sharedRef
        ∧ pointDoubleSig.receiver = ParamMode.sharedRef
        ∧ pointMulSig.receiver = ParamMode.sharedRef
        ∧ fixedPointMulSig.receiver = ParamMode.sharedRef
        ∧ pointAddSig.operandModes = [ParamMode.sharedRef]
        ∧ pointDoubleSig.operandModes = []
        ∧ pointMulSig.operandModes = [ParamMode.sharedRef]
        ∧ fixedPointMulSig.operandModes = [ParamMode.sharedRef])
      ∧ (match (chip.add l p.inner q.inner).1 with
          | Except.ok h => Point.add chip p l q = Except.ok (Point.mk h)
          | Except.error e => Point.add chip p l q = Except.error e)
      ∧ (match (chip.double l p.inner).1 with
          | Except.ok h => Point.double chip p l = Except.ok (Point.mk h)
          | Except.error e => Point.double chip p l = Except.error e)
      ∧ (match (chip.mul l s.inner p.inner).1 with
          | Except.ok h => Point.mul chip p l s = Except.ok (Point.mk h)
          | Except.error e => Point.mul chip p l s = Except.error e)
      ∧ (match (chip.mul_fixed l s.inner f.inner).1 with
          | Except.ok h => FixedPoint.mul chip f l s = Except.ok (Point.mk h)
          | Except.error e => FixedPoint.mul chip f l s = Except.error e) := by
  refine ⟨by decide, ?_, ?_, ?_, ?_⟩
  · cases hres : (chip.add l p.inner q.inner).1 with
    | ok h => simp [Point.add, hres, Except.map]
    | error e => simp [Point.add, hres, Except.map]
  · cases hres : (chip.double l p.inner).1 with
    | ok h => simp [Point.double, hres, Except.map]
    | error e => simp [Point.double, hres, Except.map]
  · cases hres : (chip.mul l s.inner p.inner).1 with
    | ok h => simp [Point.mul, hres, Except.map]
    | error e => simp [Point.mul, hres, Except.map]
  · cases hres : (chip.mul_fixed l s.inner f.inner).1 with
    | ok h => simp [FixedPoint.mul, hres, Except.map]
    | error e => simp [FixedPoint.mul, hres, Except.map]

/-- Bounds on the chip-native scalar handle, from
`type Scalar: Clone + fmt::Debug;` in the trait. -/
def scalarHandleBounds : List String := ["Clone", "Debug"]

/-- Bounds on the chip-native point handle, from
`type Point: Clone + fmt::Debug;` in the trait. -/
def pointHandleBounds : List String := ["Clone", "Debug"]

/-- Bounds on the chip-native fixed-point handle, from
`type FixedPoint: Clone + fmt::Debug;` in the trait. -/
def fixedPointHandleBounds : List String := ["Clone", "Debug"]

/-- Declaration surface of a wrapper type: its derive list, whether the
`inner` field is public, and the public methods of its impl block (the
module declares no other associated functions or constructors for it). -/
structure WrapperDecl : Type where
  derives : List String
  innerFieldPublic : Bool
  publicMethods : List String
deriving DecidableEq

/-- Declaration surface of `Scalar<C, EccChip>`: `#[derive(Debug)]`, the
private field `inner`, and no impl block at all. -/
def scalarDecl : WrapperDecl := WrapperDecl.mk ["Debug"] false []

/-- Declaration surface of `Point<C, EccChip>`: `#[derive(Debug)]`, the
private field `inner`, and the public methods `add`, `double`, `mul`. -/
def pointDecl : WrapperDecl := WrapperDecl.mk ["Debug"] false ["add", "double", "mul"]

/-- Declaration surface of `FixedPoint<C, EccChip>`: `#[derive(Debug)]`,
the private field `inner`, and the public method `mul`. -/
def fixedPointDecl : WrapperDecl := WrapperDecl.mk ["Debug"] false ["mul"]

/-- C10: the chip-native handle types are required to be cloneable, yet none
of the three wrapper types derives Clone or Copy, none exposes its private
`inner` field, and the only public methods in the module are `Point::add`,
`Point::double`, `Point::mul` and `FixedPoint::mul` — so within this module
a new wrapper can be obtained only as the result of those operations. -/
theorem wrappers_not_cloneable_and_inner_hidden :
    ("Clone" ∈ scalarHandleBounds ∧ "Clone" ∈ pointHandleBounds
        ∧ "Clone" ∈ fixedPointHandleBounds)
      ∧ ("Clone" ∉ scalarDecl.derives ∧ "Copy" ∉ scalarDecl.derives
        ∧ "Clone" ∉ pointDecl.derives ∧ "Copy" ∉ pointDecl.derives
        ∧ "Clone" ∉ fixedPointDecl.derives ∧ "Copy" ∉ fixedPointDecl.derives)
      ∧ (scalarDecl.innerFieldPublic = false ∧ pointDecl.innerFieldPublic = false
        ∧ fixedPointDecl.innerFieldPublic = false)
      ∧ (scalarDecl.publicMethods = [] ∧ pointDecl.publicMethods = ["add", "double", "mul"]
        ∧ fixedPointDecl.publicMethods = ["mul"]) := by
  decide

end EccGadget
